import Mathlib

/-
Verification development for the TexFlowyTM userscripts
(TeXFlowy.user.js, TeXFlowy-with-AsciiMath.user.js and its 0.3.2 revision).

The scripts are shallowly embedded: strings are lists of characters,
DOM fragments are lists of nodes, the WorkFlowy host API is a record of
partial maps, and code that can raise a TypeError is modelled in Option
(none = the JavaScript call throws).
-/

/-! ## Characters and character classes -/

/-- The backtick character, the AsciiMath delimiter. -/
def tick : Char := Char.ofNat 96

/-- The dollar character, the LaTeX delimiter. -/
def dollar : Char := '$'

/-- Newline, code 10. -/
def nlChar : Char := Char.ofNat 10

/-- Characters that the JavaScript regex dot does NOT match when the s
(dotall) flag is absent: line feed, carriage return, line separator,
paragraph separator.  The conversion regex in convert_to_latex has no s
flag, while both detector regexes do have it. -/
def jsDotExcl (c : Char) : Bool :=
  c = Char.ofNat 10 || c = Char.ofNat 13 || c = Char.ofNat 0x2028 || c = Char.ofNat 0x2029

/-! ## MathSpanDetector (has_latex, has_asciimath)

Source: part_000 lines 144-172 and TeXFlowy-with-AsciiMath.user.js lines
130-158.  has_latex tests text.match(a regex of a dollar, an optional
dollar, a non-greedy nonempty dotall group, a dollar, an optional dollar);
has_asciimath tests the same with single backticks.  Because the two
optional groups may match nothing and the dotall dot matches every
character, either regex has a match exactly when the text holds two
occurrences of the delimiter with at least one character strictly between
them.  The scanner below implements that matchability condition. -/

/-- After an opening delimiter, is there a closing delimiter at distance
at least two (so the non-greedy nonempty group can fill the gap)?
The argument is the character list that follows the opening delimiter. -/
def closesAt2 (c : Char) : List Char → Bool
  | [] => false
  | _ :: rs => decide (c ∈ rs)

/-- Does the text contain a delimiter pair with nonempty body, i.e. does
the delimiter regex match somewhere in the text? -/
def hasDelimPair (c : Char) : List Char → Bool
  | [] => false
  | x :: rest => (x = c && closesAt2 c rest) || hasDelimPair c rest

/-- Source part_000 lines 144-154: does the text contain a dollar
delimited LaTeX span (regex with the s flag)?  The function reads
node.textContent; here the text is passed directly. -/
def has_latex (text : List Char) : Bool := hasDelimPair dollar text

/-- Source part_000 lines 162-172: does the text contain a backtick
delimited AsciiMath span (regex with the s flag)? -/
def has_asciimath (text : List Char) : Bool := hasDelimPair tick text

/-! ## SourceConverter (convert_to_latex)

Source: part_000 lines 180-189 and TeXFlowy-with-AsciiMath.user.js lines
166-175.  str.replaceAll with a global non-greedy backtick regex WITHOUT
the s flag: scanning left to right, each match is an opening backtick, a
shortest nonempty run of dot-matchable characters, and a closing
backtick; the match is replaced by a dollar, the parsed body, a dollar.
The AsciiMath parser is the opaque external translation, passed here as
the function argument parse. -/

/-- Scan for the closing backtick of a match: succeeds returning the
characters before the closer and the characters after it; fails at end of
input or at a character the flagless dot cannot match. -/
def splitTick : List Char → Option (List Char × List Char)
  | [] => none
  | c :: rest =>
    if c = tick then some ([], rest)
    else if jsDotExcl c then none
    else
      match splitTick rest with
      | none => none
      | some (pre, post) => some (c :: pre, post)

/-- The replaceAll scan of convert_to_latex.  At a backtick it tries to
match: the body must begin with a dot-matchable character and close at
the first later backtick reached without crossing a dot-excluded
character; on success the match is replaced and scanning resumes after
the closer, otherwise the backtick is copied and scanning resumes at the
next character, exactly as the JavaScript regex engine advances. -/
def convert_go (parse : List Char → List Char) : List Char → List Char
  | [] => []
  | c :: rest =>
    if c = tick then
      match rest with
      | [] => [tick]
      | c0 :: rs =>
        if jsDotExcl c0 then tick :: convert_go parse (c0 :: rs)
        else
          match h : splitTick rs with
          | none => tick :: convert_go parse (c0 :: rs)
          | some (pre, post) =>
            dollar :: parse (c0 :: pre) ++ dollar :: convert_go parse post
    else c :: convert_go parse rest
termination_by l => l.length
decreasing_by
  · simp
  · simp
  · have key : ∀ (l p q : List Char), splitTick l = some (p, q) → q.length < l.length := by
      intro l
      induction l with
      | nil => intro p q hpq; simp [splitTick] at hpq
      | cons c rest ih =>
        intro p q hpq
        by_cases hc : c = tick
        · simp [splitTick, hc] at hpq
          obtain ⟨-, h2⟩ := hpq
          subst h2
          simp only [List.length_cons]
          omega
        · by_cases hd : jsDotExcl c
          · simp [splitTick, hc, hd] at hpq
          · cases hs : splitTick rest with
            | none => simp [splitTick, hc, hd, hs] at hpq
            | some pq2 =>
              obtain ⟨p2, q2⟩ := pq2
              simp [splitTick, hc, hd, hs] at hpq
              obtain ⟨-, h2⟩ := hpq
              subst h2
              have := ih p2 _ hs
              simp only [List.length_cons]
              omega
    have := key rs pre post h
    simp
    omega
  · simp

/-- Source part_000 lines 180-189: convert every AsciiMath backtick span
of the string to a dollar delimited LaTeX span, leaving the rest
unchanged. -/
def convert_to_latex (parse : List Char → List Char) (str : List Char) : List Char :=
  convert_go parse str

/-- Would the conversion regex match right after an opening backtick?
(The body needs a first dot-matchable character and a reachable
closer.) -/
def matchableAfter : List Char → Bool
  | [] => false
  | c0 :: rs => !jsDotExcl c0 && (splitTick rs).isSome

/-- Does the conversion regex match anywhere in the string?  (This is the
matchability notion of the FLAGLESS regex of convert_to_latex; it is
strictly weaker than has_asciimath, whose regex has the s flag.) -/
def hasTickMatch : List Char → Bool
  | [] => false
  | c :: rest => (c = tick && matchableAfter rest) || hasTickMatch rest

/-! ## DOM fragments and the RawExtractor (katexReplaceWithTex)

Source: TeXFlowy.user.js lines 52-100.  A fragment is modelled as the
list of relevant children of a content element: plain text runs, and the
wrapper spans that the external auto-render library leaves around each
rendered formula.  A display formula is a span containing a
span.katex-display containing a span.katex; an inline formula is a span
containing a span.katex.  Inside the katex span sit an optional
span.katex-mathml (holding the TeX source in an embedded annotation
element) and an optional span.katex-html visual duplicate.  Setting
element.parentNode.outerHTML to the delimited source text replaces the
whole wrapper span with that text, which is how the source restores a
formula.  -/

/-- The inner structure of one span.katex block: whether a
span.katex-mathml child is present, the text of the embedded annotation
element if one exists (none models querySelector returning null),
and whether a span.katex-html child is present. -/
structure KatexBlock where
  hasMathml : Bool
  ann : Option (List Char)
  hasHtml : Bool
deriving DecidableEq, Repr

/-- One child of a content element: a text run, or the wrapper span of a
rendered formula, with display true for span.katex-display blocks. -/
inductive DomNode where
  | text (s : List Char)
  | wrapper (display : Bool) (block : KatexBlock)
deriving DecidableEq, Repr

/-- A DOM fragment: the children of one content element. -/
abbrev Frag := List DomNode

/-- Source lines 53-58: the copy delimiters configuration, by default
a single dollar pair for inline and a double dollar pair for display
formulas. -/
structure CopyDelimiters where
  inlineL : List Char
  inlineR : List Char
  displayL : List Char
  displayR : List Char
deriving DecidableEq, Repr

/-- Source lines 53-58: defaultCopyDelimiters. -/
def defaultCopyDelimiters : CopyDelimiters :=
  { inlineL := [dollar], inlineR := [dollar],
    displayL := [dollar, dollar], displayR := [dollar, dollar] }

/-- Source lines 64-74: remove every span.katex-html that is the sibling
right after a span.katex-mathml, inside each katex block. -/
def stripKatexHtml (b : KatexBlock) : KatexBlock :=
  if b.hasMathml then { b with hasHtml := false } else b

/-- The katex-html removal pass applied to a whole fragment. -/
def removeKatexHtml (f : Frag) : Frag :=
  f.map fun n =>
    match n with
    | DomNode.text s => DomNode.text s
    | DomNode.wrapper d b => DomNode.wrapper d (stripKatexHtml b)

/-- Source lines 77-84: the display pass.  For every span.katex-display
element, texSource := element.querySelector of the annotation element,
then formulatext := texSource.innerHTML WITHOUT a null guard: when the
block has no annotation the JavaScript dereference throws a TypeError,
modelled as none.  Otherwise the wrapper parent is replaced by the
display-delimited source text. -/
def displayPass (d : CopyDelimiters) : Frag → Option Frag
  | [] => some []
  | DomNode.text s :: r => (displayPass d r).map (DomNode.text s :: ·)
  | DomNode.wrapper false b :: r => (displayPass d r).map (DomNode.wrapper false b :: ·)
  | DomNode.wrapper true b :: r =>
    match b.ann with
    | none => none
    | some src => (displayPass d r).map (DomNode.text (d.displayL ++ src ++ d.displayR) :: ·)

/-- Source lines 88-97: the inline pass.  Every remaining span.katex
element whose annotation exists is replaced by the inline-delimited
source text; a block with no annotation is guarded by if texSource and
skipped.  (A display wrapper surviving to this pass would also be
matched through its inner span.katex; after the display pass none
survive, see theorem c9.) -/
def inlinePass (d : CopyDelimiters) : Frag → Frag
  | [] => []
  | DomNode.text s :: r => DomNode.text s :: inlinePass d r
  | DomNode.wrapper disp b :: r =>
    match b.ann with
    | none => DomNode.wrapper disp b :: inlinePass d r
    | some src => DomNode.text (d.inlineL ++ src ++ d.inlineR) :: inlinePass d r

/-- Source lines 62-100: katexReplaceWithTex.  Strip duplicate
katex-html blocks, resolve display blocks, then resolve the remaining
inline blocks.  none models the TypeError thrown by the unguarded
display pass. -/
def katexReplaceWithTex (fragment : Frag)
    (copyDelimiters : CopyDelimiters := defaultCopyDelimiters) : Option Frag :=
  (displayPass copyDelimiters (removeKatexHtml fragment)).map (inlinePass copyDelimiters)

/-- The concatenated text of the text runs of a fragment (used on
fragments that are entirely text, where it is the DOM textContent). -/
def fragText : Frag → List Char
  | [] => []
  | DomNode.text s :: r => s ++ fragText r
  | DomNode.wrapper _ _ :: r => fragText r

/-- Is every node of the fragment a plain text run (no rendered markup
left)? -/
def allText (f : Frag) : Bool :=
  f.all fun n => match n with | DomNode.text _ => true | DomNode.wrapper _ _ => false

/-- querySelector for span.katex-mathml on a content element: does some
rendered block with a katex-mathml child occur in the fragment? -/
def fragHasMathml (f : Frag) : Bool :=
  f.any fun n => match n with | DomNode.text _ => false | DomNode.wrapper _ b => b.hasMathml

/-- Does every rendered block of the fragment carry its annotation? -/
def allAnn (f : Frag) : Bool :=
  f.all fun n => match n with | DomNode.text _ => true | DomNode.wrapper _ b => b.ann.isSome

/-- Is the node a display wrapper (a span.katex-display block)? -/
def isDisplay : DomNode → Bool
  | DomNode.wrapper true _ => true
  | _ => false

/-! ## RenderInvoker, modelled from the spec

Modelled from the spec: renderMathViaKatex (TeXFlowy.user.js lines
109-120) only forwards to renderMathInElement of the external KaTeX
auto-render library, which is not part of this repository.  Spec section
4.3: the renderer mutates every delimited math span of the element into
a rendered subtree tagged for later reversal, and section 4.4 adds that
each rendered block embeds its original source in an annotation element.
A raw source with well-formed math is therefore modelled by its list of
segments (plain text between formulas, inline formulas, display
formulas), and rendering maps each formula segment to the wrapper span
the library produces. -/

/-- One segment of a raw source text with well-formed delimited math. -/
inductive Seg where
  | plain (s : List Char)
  | imath (src : List Char)
  | dmath (src : List Char)
deriving DecidableEq, Repr

/-- Modelled from the spec: the effect of renderMathViaKatex on a
well-formed source, segment by segment.  Rendered blocks carry the
katex-mathml child with the annotation holding the source, plus the
katex-html visual duplicate. -/
def renderMathViaKatex (segs : List Seg) : Frag :=
  segs.map fun s =>
    match s with
    | Seg.plain t => DomNode.text t
    | Seg.imath src => DomNode.wrapper false { hasMathml := true, ann := some src, hasHtml := true }
    | Seg.dmath src => DomNode.wrapper true { hasMathml := true, ann := some src, hasHtml := true }

/-- The raw source text of a segment list, written with the canonical
delimiters (single dollars inline, double dollars display). -/
def rawSource : List Seg → List Char
  | [] => []
  | Seg.plain t :: r => t ++ rawSource r
  | Seg.imath src :: r => dollar :: src ++ dollar :: rawSource r
  | Seg.dmath src :: r => dollar :: dollar :: src ++ dollar :: dollar :: rawSource r

/-! ## ContainerSync (handle_node)

Source: part_000 lines 64-136 (revision 0.3.2 of the AsciiMath variant;
TeXFlowy-with-AsciiMath.user.js lines 63-122 is the earlier revision with
the same container logic).  The state below keeps what handle_node can
read or write: the inner content node (its text and class list), the
parent content element (its class list and whether it exists), the class
list of the parent of the parent (none models a null parentElement,
whose classList dereference throws), and the list of siblings that
follow the parent.  The rendered container content, the focus and blur
handlers and the style mutations are not observed by any claim and are
elided. -/

/-- The class name rendered-latex of the engine-owned container. -/
def renderedLatexC : String := "rendered-latex"

/-- The marker class has-latex. -/
def hasLatexC : String := "has-latex"

/-- The token produced by classList.add of an undefined index: the
DOMTokenList coerces undefined to the literal string. -/
def undefinedC : String := "undefined"

/-- A sibling of the parent element: an element with a class list, or a
non-element node (text or comment), which has no classList. -/
inductive SibNode where
  | elem (classes : List String)
  | textNode
deriving DecidableEq, Repr

/-- classList.add: appends the token unless already present. -/
def addClass (l : List String) (c : String) : List String :=
  if c ∈ l then l else l ++ [c]

/-- classList.remove: removes every occurrence of the token. -/
def removeClass (l : List String) (c : String) : List String :=
  l.filter fun x => x != c

/-- classList indexing, coercing a missing index to the literal token
undefined as classList.add does. -/
def classListIdx (l : List String) (i : Nat) : String :=
  l.getD i undefinedC

/-- The state handle_node operates on. -/
structure HandleState where
  hasParent : Bool
  nodeText : List Char
  nodeClasses : List String
  parentClasses : List String
  gparentClasses : Option (List String)
  next : List SibNode
deriving DecidableEq, Repr

/-- Source part_000 lines 64-136: handle_node.
1. no parent: return (the dummy-node guard);
2. if parent.nextSibling exists and carries rendered-latex, remove it
   and drop the has-latex markers (a non-element nextSibling has no
   classList, so the dereference throws: none);
3. if neither has_latex nor has_asciimath holds for the node text,
   return;
4. read whether the grandparent is a note (its classList dereference
   throws if the parent has no parentElement), add the has-latex
   markers, and insert a new rendered-latex container right after the
   parent, copying class indexes 1 and 2 of the parent class list.
The container content (convert_to_latex of the inner HTML, then the
external renderMathInElement), the click, focus and blur handlers and
the style changes are elided: no claim mentions them. -/
def handle_node (st : HandleState) : Option HandleState :=
  if st.hasParent = false then some st else
  match
    (match st.next with
     | [] => some st
     | SibNode.textNode :: _ => none
     | SibNode.elem cs :: rest =>
       if renderedLatexC ∈ cs then
         some { st with next := rest,
                        nodeClasses := removeClass st.nodeClasses hasLatexC,
                        parentClasses := removeClass st.parentClasses hasLatexC }
       else some st)
  with
  | none => none
  | some st1 =>
    if (has_latex st1.nodeText || has_asciimath st1.nodeText) = false then some st1
    else
      match st1.gparentClasses with
      | none => none
      | some _gp =>
        let parC := addClass st1.parentClasses hasLatexC
        let contC := addClass (addClass (addClass [] renderedLatexC)
                       (classListIdx parC 1)) (classListIdx parC 2)
        some { st1 with
               nodeClasses := addClass st1.nodeClasses hasLatexC,
               parentClasses := parC,
               next := SibNode.elem contC :: st1.next }

/-- Does the sibling carry the rendered-latex class? -/
def isRendered (s : SibNode) : Bool :=
  match s with
  | SibNode.elem cs => decide (renderedLatexC ∈ cs)
  | SibNode.textNode => false

/-- How many rendered-latex containers sit among the following
siblings? -/
def countRendered (l : List SibNode) : Nat := l.countP isRendered

/-- The at-most-one shape: every rendered-latex container among the
following siblings, if any, is the immediate next sibling. -/
def renderedOnlyAtHead : List SibNode → Bool
  | [] => true
  | _ :: rest => decide (countRendered rest = 0)

/-! ## FocusTransitionTracker and EventDispatcher (TeXFlowy.user.js)

Source: TeXFlowy.user.js lines 102-305.  The host API (spec section 6)
is modelled as finite maps inside one state record: the set of existing
item identifiers (getItemById returns null outside it), the focused and
the current item (none models a null return), the previous visible
sibling map, and the element map (none models getElement returning
null).  The module variables oldfocusedItemID and currentID and the
selection anchor offset complete the state.  Element mutation is
modelled by updating the element map.  The external renderMathInElement
is the opaque function argument render.  A thrown TypeError is none. -/

/-- Association lookup for string-keyed maps. -/
def lookupA {α : Type} : List (String × α) → String → Option α
  | [], _ => none
  | (k, v) :: r, key => if k = key then some v else lookupA r key

/-- Association update (the new binding shadows the old one). -/
def setA {α : Type} (m : List (String × α)) (k : String) (v : α) :
    List (String × α) := (k, v) :: m

/-- The keydown event object: key code and the alt modifier. -/
structure EventObject where
  keyCode : Nat
  altKey : Bool
deriving DecidableEq, Repr

/-- The whole observable state: host API maps, module variables, and the
selection offset. -/
structure WfState where
  items : List String
  focused : Option String
  current : Option String
  anchorOffset : Nat
  prevSib : List (String × String)
  elems : List (String × Frag)
  oldfocusedItemID : Option String
  currentID : Option String
deriving DecidableEq, Repr

/-- Source lines 126-161: renderMath.  currentItem and its element are
both null-guarded; on success the element is re-rendered by the external
renderer.  The blur and focus handler attachment and the note style
overrides (lines 137-159) are elided: no claim mentions them. -/
def renderMath (render : Frag → Frag) (st : WfState) : Option WfState :=
  match st.current with
  | none => some st
  | some cid =>
    match lookupA st.elems cid with
    | none => some st
    | some frag => some { st with elems := setA st.elems cid (render frag) }

/-- The work a listener run leaves for the timeout queue. -/
inductive DeferredWork where
  | renderAll
  | main
deriving DecidableEq, Repr

/-- Source lines 209-225: the synchronous Backspace branch.  At anchor
offset zero the code calls getPreviousVisibleSibling on
WF.focusedItem() WITHOUT a null guard (none when focusedItem is null).
A null sibling or a null sibling element falls through; a sibling
element without katex-mathml returns from the whole listener (the
boolean records whether the deferred callback is still scheduled);
otherwise the sibling element is converted in place by
katexReplaceWithTex. -/
def backspaceSync (st : WfState) : Option (WfState × Bool) :=
  if st.anchorOffset ≠ 0 then some (st, true) else
  match st.focused with
  | none => none
  | some fid =>
    match lookupA st.prevSib fid with
    | none => some (st, true)
    | some pid =>
      match lookupA st.elems pid with
      | none => some (st, true)
      | some frag =>
        if fragHasMathml frag = false then some (st, false)
        else
          match katexReplaceWithTex frag defaultCopyDelimiters with
          | none => none
          | some frag2 => some ({ st with elems := setA st.elems pid frag2 }, true)

/-- Source lines 205-226: the synchronous phase of wfEventListener.
Alt-Enter schedules only renderMath; Backspace runs the synchronous
branch above (possibly returning early without scheduling anything);
every other path schedules the main deferred callback. -/
def wfSync (ev : EventObject) (st : WfState) :
    Option (WfState × Option DeferredWork) :=
  if ev.keyCode = 13 ∧ ev.altKey then some (st, some DeferredWork.renderAll)
  else if ev.keyCode = 8 then
    match backspaceSync st with
    | none => none
    | some (st1, sched) =>
      some (st1, if sched then some DeferredWork.main else none)
  else some (st, some DeferredWork.main)

/-- Source lines 231-234 of the deferred callback: on Enter the code
sets oldfocusedItemID to the identifier of the previous visible sibling
of the focused item WITHOUT a null guard (none when the sibling is
null); currentID is set to the focused identifier. -/
def mainDetect (ev : EventObject) (fid : String) (st : WfState) : Option WfState :=
  if ev.keyCode = 13 then
    match lookupA st.prevSib fid with
    | none => none
    | some pid => some { st with oldfocusedItemID := some pid, currentID := some fid }
  else some { st with currentID := some fid }

/-- Source lines 238-271: re-render the element of the old focused item.
getItemById of a stale or undefined identifier returns null and is
guarded, as is a null getElement; on success the old element is handed
to the external renderer (the handler attachment and note styles of
lines 247-269 are elided). -/
def rerenderOld (render : Frag → Frag) (st : WfState) : WfState :=
  match st.oldfocusedItemID with
  | none => st
  | some oid =>
    if oid ∈ st.items then
      match lookupA st.elems oid with
      | none => st
      | some ofrag => { st with elems := setA st.elems oid (render ofrag) }
    else st

/-- Source lines 236-279 after detection: if the observed identifier
differs from oldfocusedItemID the old element is re-rendered; line 273
then overwrites oldfocusedItemID with currentID; finally the focused
element is read (a null getElement makes the querySelector on line 274
throw: none) and, when it contains katex-mathml, converted in place by
katexReplaceWithTex. -/
def mainRest (render : Frag → Frag) (fid : String) (st2 : WfState) : Option WfState :=
  let st3 := if some fid ≠ st2.oldfocusedItemID then rerenderOld render st2 else st2
  let st4 := { st3 with oldfocusedItemID := some fid }
  match lookupA st3.elems fid with
  | none => none
  | some ffrag =>
    if fragHasMathml ffrag = false then some st4
    else
      match katexReplaceWithTex ffrag defaultCopyDelimiters with
      | none => none
      | some f2 => some { st4 with elems := setA st4.elems fid f2 }

/-- Source lines 226-279: the deferred callback.  A null focusedItem is
guarded and returns; otherwise detection then reconciliation. -/
def mainDeferred (render : Frag → Frag) (ev : EventObject) (st : WfState) :
    Option WfState :=
  match st.focused with
  | none => some st
  | some fid =>
    match mainDetect ev fid st with
    | none => none
    | some st2 => mainRest render fid st2

/-- Source lines 205-280: a whole listener run, the synchronous phase
followed by the deferred work it scheduled. -/
def wfEventListener (render : Frag → Frag) (ev : EventObject) (st : WfState) :
    Option WfState :=
  match wfSync ev st with
  | none => none
  | some (st1, none) => some st1
  | some (st1, some DeferredWork.renderAll) => renderMath render st1
  | some (st1, some DeferredWork.main) => mainDeferred render ev st1

/-! ## Helper lemmas -/

theorem closesAt2_eq_false {c : Char} {l : List Char} (h : c ∉ l) :
    closesAt2 c l = false := by
  cases l with
  | nil => rfl
  | cons x xs =>
    simp [closesAt2]
    exact fun hx => h (List.mem_cons_of_mem x hx)

theorem hasDelimPair_pos (c : Char) (a m b : List Char) (hm : m ≠ []) :
    hasDelimPair c (a ++ c :: m ++ c :: b) = true := by
  induction a with
  | nil =>
    obtain ⟨y, m', rfl⟩ := List.exists_cons_of_ne_nil hm
    simp [hasDelimPair, closesAt2]
  | cons x xs ih =>
    simp [hasDelimPair]
    right
    simpa using ih

theorem hasDelimPair_neg {c : Char} : ∀ {s : List Char},
    s.count c ≤ 1 → hasDelimPair c s = false := by
  intro s
  induction s with
  | nil => intro _; rfl
  | cons x xs ih =>
    intro h
    by_cases hx : x = c
    · subst hx
      rw [List.count_cons_self] at h
      have hcount : xs.count x = 0 := by omega
      have hnotmem : x ∉ xs := List.count_eq_zero.mp hcount
      have h1 : closesAt2 x xs = false := closesAt2_eq_false hnotmem
      have h2 : hasDelimPair x xs = false := ih (by omega)
      simp [hasDelimPair, h1, h2]
    · have hcnt : xs.count c ≤ 1 := by
        rw [List.count_cons_of_ne (fun hh => hx hh.symm)] at h
        exact h
      simp [hasDelimPair, hx, ih hcnt]

theorem splitTick_clean (b : List Char) : ∀ (a : List Char), tick ∉ a →
    (∀ c ∈ a, jsDotExcl c = false) →
    splitTick (a ++ tick :: b) = some (a, b) := by
  intro a
  induction a with
  | nil => intro _ _; simp [splitTick]
  | cons x xs ih =>
    intro hnt hnd
    have hx : ¬ x = tick := fun hh => hnt (by simp [hh])
    have hdx : jsDotExcl x = false := hnd x (by simp)
    have ihh := ih (fun hm => hnt (by simp [hm])) (fun c hc => hnd c (by simp [hc]))
    simp [splitTick, hx, hdx, ihh]

theorem convert_go_nil (parse : List Char → List Char) :
    convert_go parse [] = [] := by
  rw [convert_go.eq_def]

theorem convert_go_not_tick (parse : List Char → List Char) {c : Char}
    (h : ¬ c = tick) (rest : List Char) :
    convert_go parse (c :: rest) = c :: convert_go parse rest := by
  rw [convert_go.eq_def]
  simp [h]

theorem convert_go_tick_end (parse : List Char → List Char) :
    convert_go parse [tick] = [tick] := by
  rw [convert_go.eq_def]
  simp

theorem convert_go_tick_nomatch (parse : List Char → List Char) {c0 : Char}
    {rs : List Char} (h : jsDotExcl c0 = true ∨ splitTick rs = none) :
    convert_go parse (tick :: c0 :: rs) = tick :: convert_go parse (c0 :: rs) := by
  rw [convert_go.eq_def]
  by_cases hd : jsDotExcl c0
  · simp [hd]
  · have hn : splitTick rs = none := by
      cases h with
      | inl h1 => exact absurd h1 hd
      | inr h2 => exact h2
    simp [hd]
    split
    · rfl
    · rename_i pre post heq
      rw [hn] at heq
      cases heq

theorem convert_go_tick_match (parse : List Char → List Char) {c0 : Char}
    {rs pre post : List Char} (h0 : jsDotExcl c0 = false)
    (hs : splitTick rs = some (pre, post)) :
    convert_go parse (tick :: c0 :: rs) =
      dollar :: parse (c0 :: pre) ++ dollar :: convert_go parse post := by
  rw [convert_go.eq_def]
  simp [h0]
  split
  · rename_i heq
    rw [hs] at heq
    cases heq
  · rename_i pre2 post2 heq
    rw [hs] at heq
    simp at heq
    rw [heq.1, heq.2]

/-! ## Claim C7 -/

/-- C7: detector correctness.  Any text containing a balanced inline
delimiter pair with nonempty body makes has_latex (dollar pair) or
has_asciimath (backtick pair) true; a text with at most one occurrence
of the delimiter (empty, delimiter-free, or a single stray unclosed
delimiter) makes them false.  Both detectors are total Lean functions,
which settles the never-throws part of the claim.  The double dollar
display form is an instance of the first clause (take the surrounding
text to carry the extra dollars). -/
theorem c7_detectors :
    (∀ a m b : List Char, m ≠ [] → has_latex (a ++ dollar :: m ++ dollar :: b) = true) ∧
    (∀ a m b : List Char, m ≠ [] → has_asciimath (a ++ tick :: m ++ tick :: b) = true) ∧
    (∀ s : List Char, s.count dollar ≤ 1 → has_latex s = false) ∧
    (∀ s : List Char, s.count tick ≤ 1 → has_asciimath s = false) := by
  refine ⟨?_, ?_, ?_, ?_⟩
  · intro a m b hm; exact hasDelimPair_pos dollar a m b hm
  · intro a m b hm; exact hasDelimPair_pos tick a m b hm
  · intro s hs; exact hasDelimPair_neg hs
  · intro s hs; exact hasDelimPair_neg hs

/-- Witness for C7 at concrete inputs: a dollar span in running text and
a display span are detected, a backtick span is detected, a stray single
dollar and a lone backtick are not. -/
theorem c7_detectors_witness :
    has_latex (['a'] ++ dollar :: ['x'] ++ dollar :: ['b']) = true ∧
    has_latex ([dollar] ++ dollar :: ('x' :: [dollar]) ++ dollar :: []) = true ∧
    has_asciimath (['a'] ++ tick :: ['y'] ++ tick :: []) = true ∧
    has_latex ([dollar, 'a']) = false ∧
    has_asciimath ([tick]) = false ∧
    has_latex ([]) = false :=
  ⟨c7_detectors.1 ['a'] ['x'] ['b'] (by decide),
   c7_detectors.1 [dollar] ('x' :: [dollar]) [] (by decide),
   c7_detectors.2.1 ['a'] ['y'] [] (by decide),
   c7_detectors.2.2.1 [dollar, 'a'] (by decide),
   c7_detectors.2.2.2 [tick] (by decide),
   c7_detectors.2.2.1 [] (by decide)⟩

/-! ## Claim C8 -/

/-- C8 counterexample: the claim says every backtick delimited substring
is replaced, but the conversion regex has no dotall flag, so a backtick
pair whose body spans a newline is left untouched even though it is a
backtick delimited substring (and even though has_asciimath, whose regex
has the flag, detects it).  With the identity as the opaque parser the
claimed output would be the dollar wrapped body; the code returns the
input unchanged. -/
theorem c8_counterexample :
    convert_to_latex id (tick :: 'a' :: nlChar :: 'b' :: [tick]) =
      (tick :: 'a' :: nlChar :: 'b' :: [tick]) ∧
    convert_to_latex id (tick :: 'a' :: nlChar :: 'b' :: [tick]) ≠
      (dollar :: 'a' :: nlChar :: 'b' :: [dollar]) ∧
    has_asciimath (tick :: 'a' :: nlChar :: 'b' :: [tick]) = true := by
  refine ⟨?_, ?_, by decide⟩
  · simp [convert_to_latex, convert_go, splitTick, jsDotExcl, tick, nlChar]
  · simp [convert_to_latex, convert_go, splitTick, jsDotExcl, tick, nlChar, dollar]

/-- C8 (amended): convert_to_latex replaces every non-overlapping
backtick pair whose nonempty body contains no backtick and no character
outside the flagless regex dot class (newline, carriage return, line and
paragraph separator), wrapping the opaque translation in single dollars
and passing all text outside such pairs through byte for byte; and on
any input in which the conversion regex has no match at all (in
particular any input with no backtick pair) the output equals the
input. -/
theorem c8_convert :
    (∀ (parse : List Char → List Char) (pre content post : List Char),
        tick ∉ pre → content ≠ [] → tick ∉ content →
        (∀ c ∈ content, jsDotExcl c = false) →
        convert_to_latex parse (pre ++ tick :: content ++ tick :: post) =
          pre ++ dollar :: parse content ++ dollar :: convert_to_latex parse post) ∧
    (∀ (parse : List Char → List Char) (s : List Char),
        hasTickMatch s = false → convert_to_latex parse s = s) := by
  constructor
  · intro parse pre content post
    induction pre with
    | nil =>
      intro _ hne hnt hnd
      obtain ⟨c0, ctail, rfl⟩ := List.exists_cons_of_ne_nil hne
      have h0 : jsDotExcl c0 = false := hnd c0 (by simp)
      have hsplit : splitTick (ctail ++ tick :: post) = some (ctail, post) :=
        splitTick_clean post ctail (fun hm => hnt (by simp [hm]))
          (fun c hc => hnd c (by simp [hc]))
      simp only [convert_to_latex, List.nil_append, List.cons_append]
      rw [convert_go_tick_match parse h0 hsplit]
      simp
    | cons x xs ih =>
      intro hp hne hnt hnd
      have hx : ¬ x = tick := fun hh => hp (by simp [hh])
      have ihh := ih (fun hm => hp (by simp [hm])) hne hnt hnd
      simp only [convert_to_latex] at ihh ⊢
      simp only [List.cons_append]
      rw [convert_go_not_tick parse hx]
      rw [ihh]
  · intro parse s hm
    induction s with
    | nil => simp [convert_to_latex, convert_go_nil]
    | cons c rest ih =>
      simp only [hasTickMatch, Bool.or_eq_false_iff, Bool.and_eq_false_iff] at hm
      obtain ⟨hm1, hm2⟩ := hm
      have ihh := ih hm2
      simp only [convert_to_latex] at ihh ⊢
      by_cases hc : c = tick
      · subst hc
        have hmm : matchableAfter rest = false := by
          cases hm1 with
          | inl h => simp at h
          | inr h => exact h
        cases rest with
        | nil => exact convert_go_tick_end parse
        | cons c0 rs =>
          simp only [matchableAfter, Bool.and_eq_false_iff, Bool.not_eq_false'] at hmm
          have hcase : jsDotExcl c0 = true ∨ splitTick rs = none := by
            cases hmm with
            | inl h => exact Or.inl h
            | inr h => exact Or.inr (Option.not_isSome_iff_eq_none.mp (by simp [h]))
          rw [convert_go_tick_nomatch parse hcase]
          rw [ihh]
      · rw [convert_go_not_tick parse hc]
        rw [ihh]

/-- Witness for C8 at the example of the spec: with the opaque parser
left abstract as the identity, the text a space backtick x caret 2
backtick space b converts to the same text with the backtick pair
replaced by a dollar pair. -/
theorem c8_convert_witness :
    convert_to_latex id (['a', ' '] ++ tick :: ['x', '^', '2'] ++ tick :: [' ', 'b']) =
      ['a', ' '] ++ dollar :: id ['x', '^', '2'] ++ dollar :: convert_to_latex id [' ', 'b'] :=
  c8_convert.1 id ['a', ' '] ['x', '^', '2'] [' ', 'b']
    (by decide) (by decide) (by decide) (by decide)

/-! ## Claim C1 -/

/-- C1: round trip.  For every raw source with well-formed delimited
math (modelled by its segment list), rendering with the modelled
RenderInvoker and then applying katexReplaceWithTex to the rendered
subtree succeeds and yields exactly the source text written with the
canonical delimiter pairs (single dollars inline, double dollars
display), i.e. text delimiter-equal to the source. -/
theorem c1_round_trip : ∀ segs : List Seg, ∃ f : Frag,
    katexReplaceWithTex (renderMathViaKatex segs) defaultCopyDelimiters = some f ∧
    fragText f = rawSource segs := by
  have aux : ∀ segs : List Seg, ∃ f2 : Frag,
      displayPass defaultCopyDelimiters (removeKatexHtml (renderMathViaKatex segs)) = some f2 ∧
      fragText (inlinePass defaultCopyDelimiters f2) = rawSource segs := by
    intro segs
    induction segs with
    | nil => exact ⟨[], rfl, rfl⟩
    | cons s rest ih =>
      obtain ⟨f2, h1, h2⟩ := ih
      cases s with
      | plain t =>
        refine ⟨DomNode.text t :: f2, ?_, ?_⟩
        · simp [renderMathViaKatex, removeKatexHtml, displayPass] at h1 ⊢
          rw [h1]
        · simp [inlinePass, fragText, rawSource, h2]
      | imath src =>
        refine ⟨DomNode.wrapper false
          { hasMathml := true, ann := some src, hasHtml := false } :: f2, ?_, ?_⟩
        · simp [renderMathViaKatex, removeKatexHtml, stripKatexHtml, displayPass] at h1 ⊢
          rw [h1]
        · have e1 : defaultCopyDelimiters.inlineL = [dollar] := rfl
          have e2 : defaultCopyDelimiters.inlineR = [dollar] := rfl
          simp [inlinePass, fragText, rawSource, h2, e1, e2]
      | dmath src =>
        refine ⟨DomNode.text (dollar :: dollar :: src ++ [dollar, dollar]) :: f2, ?_, ?_⟩
        · have e3 : defaultCopyDelimiters.displayL = [dollar, dollar] := rfl
          have e4 : defaultCopyDelimiters.displayR = [dollar, dollar] := rfl
          simp [renderMathViaKatex, removeKatexHtml, stripKatexHtml, displayPass,
            e3, e4] at h1 ⊢
          rw [h1]
        · simp [inlinePass, fragText, rawSource, h2]
  intro segs
  obtain ⟨f2, h1, h2⟩ := aux segs
  exact ⟨inlinePass defaultCopyDelimiters f2, by simp [katexReplaceWithTex, h1], h2⟩

/-! ## Claim C5 -/

/-- C5: the claim that katexReplaceWithTex never throws fails for
display blocks.  A display-mode rendered block whose annotation is
missing makes the display pass dereference a null querySelector result,
a TypeError (none); an inline-mode block with the same corruption is
guarded and skipped, left in rendered form; and the thrown display case
also prevents every other block of the fragment from being restored. -/
theorem c5_display_throws :
    katexReplaceWithTex
      [DomNode.wrapper true { hasMathml := true, ann := none, hasHtml := true }]
      defaultCopyDelimiters = none ∧
    katexReplaceWithTex
      [DomNode.wrapper false { hasMathml := true, ann := none, hasHtml := true }]
      defaultCopyDelimiters =
      some [DomNode.wrapper false { hasMathml := true, ann := none, hasHtml := false }] ∧
    katexReplaceWithTex
      [DomNode.wrapper true { hasMathml := true, ann := none, hasHtml := true },
       DomNode.wrapper false { hasMathml := true, ann := some ['x'], hasHtml := true }]
      defaultCopyDelimiters = none := by
  refine ⟨rfl, rfl, rfl⟩

/-! ## Claim C9 -/

/-- C9: processing order of the RawExtractor.  Whenever the display pass
succeeds, its output contains no display block at all, so the subsequent
inline pass (which is exactly what katexReplaceWithTex applies to that
output) can only restore genuine inline blocks: no display block is
processed again through the inline selector. -/
theorem c9_display_first : ∀ (d : CopyDelimiters) (f f2 : Frag),
    displayPass d (removeKatexHtml f) = some f2 →
    (∀ n ∈ f2, isDisplay n = false) ∧
    katexReplaceWithTex f d = some (inlinePass d f2) := by
  have aux : ∀ (d : CopyDelimiters) (g f2 : Frag), displayPass d g = some f2 →
      ∀ n ∈ f2, isDisplay n = false := by
    intro d g
    induction g with
    | nil =>
      intro f2 h
      simp [displayPass] at h
      subst h
      intro n hn
      exact absurd hn (List.not_mem_nil n)
    | cons n r ih =>
      intro f2 h
      cases n with
      | text s =>
        simp [displayPass] at h
        obtain ⟨f2', hf2', rfl⟩ := h
        intro n hn
        cases hn with
        | head => rfl
        | tail _ hmem => exact ih f2' hf2' n hmem
      | wrapper disp b =>
        cases disp with
        | false =>
          simp [displayPass] at h
          obtain ⟨f2', hf2', rfl⟩ := h
          intro n hn
          cases hn with
          | head => rfl
          | tail _ hmem => exact ih f2' hf2' n hmem
        | true =>
          cases hann : b.ann with
          | none => simp [displayPass, hann] at h
          | some src =>
            simp [displayPass, hann] at h
            obtain ⟨f2', hf2', rfl⟩ := h
            intro n hn
            cases hn with
            | head => rfl
            | tail _ hmem => exact ih f2' hf2' n hmem
  intro d f f2 h
  exact ⟨aux d (removeKatexHtml f) f2 h, by simp [katexReplaceWithTex, h]⟩

/-- Witness for C9 at a concrete fragment holding one display block:
the display pass output is pure text, and katexReplaceWithTex finishes
by running the inline pass on it. -/
theorem c9_display_first_witness :
    (∀ n ∈ ([DomNode.text [dollar, dollar, 'x', dollar, dollar]] : Frag),
        isDisplay n = false) ∧
    katexReplaceWithTex
      [DomNode.wrapper true { hasMathml := true, ann := some ['x'], hasHtml := true }]
      defaultCopyDelimiters =
      some (inlinePass defaultCopyDelimiters
        [DomNode.text [dollar, dollar, 'x', dollar, dollar]]) :=
  c9_display_first defaultCopyDelimiters
    [DomNode.wrapper true { hasMathml := true, ann := some ['x'], hasHtml := true }]
    [DomNode.text [dollar, dollar, 'x', dollar, dollar]] rfl

/-! ## Helper lemmas for handle_node -/

theorem mem_addClass (l : List String) (c a : String) (h : a ∈ l) : a ∈ addClass l c := by
  by_cases hc : c ∈ l
  · simpa [addClass, hc] using h
  · simp only [addClass, if_neg hc]
    exact List.mem_append_left _ h

theorem mem_addClass_self (l : List String) (c : String) : c ∈ addClass l c := by
  by_cases hc : c ∈ l
  · simpa [addClass, hc] using hc
  · simp [addClass, hc]

theorem mem_contC (x y : String) :
    renderedLatexC ∈ addClass (addClass (addClass [] renderedLatexC) x) y :=
  mem_addClass _ _ _ (mem_addClass _ _ _ (mem_addClass_self [] renderedLatexC))

theorem countRendered_cons (s : SibNode) (l : List SibNode) :
    countRendered (s :: l) = countRendered l + (if isRendered s then 1 else 0) :=
  List.countP_cons _ _ _

theorem renderedOnlyAtHead_of_zero {l : List SibNode} (h : countRendered l = 0) :
    renderedOnlyAtHead l = true := by
  cases l with
  | nil => rfl
  | cons s r =>
    have hc := countRendered_cons s r
    simp [renderedOnlyAtHead]
    by_cases hs : isRendered s <;> simp [hs] at hc <;> omega

theorem count_le_one_of_onlyHead {l : List SibNode} (h : renderedOnlyAtHead l = true) :
    countRendered l ≤ 1 := by
  cases l with
  | nil => simp [countRendered]
  | cons s r =>
    simp [renderedOnlyAtHead] at h
    have hc := countRendered_cons s r
    by_cases hs : isRendered s <;> simp [hs] at hc <;> omega

theorem onlyHead_tail_zero {s : SibNode} {r : List SibNode}
    (h : renderedOnlyAtHead (s :: r) = true) : countRendered r = 0 := by
  simpa [renderedOnlyAtHead] using h

theorem handle_node_noparent {st : HandleState} (hp : st.hasParent = false) :
    handle_node st = some st := by
  simp [handle_node, hp]

theorem handle_node_textnode {st : HandleState} (hp : st.hasParent = true)
    {r : List SibNode} (hn : st.next = SibNode.textNode :: r) :
    handle_node st = none := by
  simp [handle_node, hp, hn]

theorem handle_node_nogparent {st : HandleState} (hp : st.hasParent = true)
    (hm : (has_latex st.nodeText || has_asciimath st.nodeText) = true)
    (hg : st.gparentClasses = none)
    (hnt : st.next.head? ≠ some SibNode.textNode) :
    handle_node st = none := by
  cases hn : st.next with
  | nil => simp [handle_node, hp, hn, hm, hg]
  | cons s rest =>
    cases s with
    | textNode => exact absurd (by rw [hn]; rfl) hnt
    | elem cs =>
      by_cases hr : renderedLatexC ∈ cs
      · simp [handle_node, hp, hn, hr, hm, hg]
      · simp [handle_node, hp, hn, hr, hm, hg]


theorem handle_node_build {st : HandleState} (hp : st.hasParent = true)
    (hm : (has_latex st.nodeText || has_asciimath st.nodeText) = true)
    {g : List String} (hg : st.gparentClasses = some g)
    (hnt : st.next.head? ≠ some SibNode.textNode) :
    ∃ (st' : HandleState) (next1 : List SibNode) (contC : List String),
      handle_node st = some st' ∧
      renderedLatexC ∈ contC ∧
      st'.next = SibNode.elem contC :: next1 ∧
      ((∃ cs, st.next = SibNode.elem cs :: next1 ∧ renderedLatexC ∈ cs) ∨ next1 = st.next) ∧
      (renderedOnlyAtHead st.next = true → countRendered next1 = 0) ∧
      st'.nodeText = st.nodeText ∧
      st'.hasParent = true ∧
      st'.gparentClasses = st.gparentClasses := by
  cases hn : st.next with
  | nil =>
    have hEq : handle_node st = some { st with
        nodeClasses := addClass st.nodeClasses hasLatexC,
        parentClasses := addClass st.parentClasses hasLatexC,
        next := [SibNode.elem (addClass (addClass (addClass [] renderedLatexC)
          (classListIdx (addClass st.parentClasses hasLatexC) 1))
          (classListIdx (addClass st.parentClasses hasLatexC) 2))] } := by
      simp [handle_node, hp, hn, hm, hg]
    refine ⟨_, [],
      addClass (addClass (addClass [] renderedLatexC)
        (classListIdx (addClass st.parentClasses hasLatexC) 1))
        (classListIdx (addClass st.parentClasses hasLatexC) 2),
      hEq, mem_contC _ _, rfl, Or.inr rfl, fun _ => rfl, rfl, hp, rfl⟩
  | cons s rest =>
    cases s with
    | textNode => exact absurd (by rw [hn]; rfl) hnt
    | elem cs =>
      by_cases hr : renderedLatexC ∈ cs
      · have hEq : handle_node st = some { st with
            nodeClasses := addClass (removeClass st.nodeClasses hasLatexC) hasLatexC,
            parentClasses := addClass (removeClass st.parentClasses hasLatexC) hasLatexC,
            next := SibNode.elem (addClass (addClass (addClass [] renderedLatexC)
              (classListIdx (addClass (removeClass st.parentClasses hasLatexC) hasLatexC) 1))
              (classListIdx (addClass (removeClass st.parentClasses hasLatexC) hasLatexC) 2))
              :: rest } := by
          simp [handle_node, hp, hn, hr, hm, hg]
        refine ⟨_, rest,
          addClass (addClass (addClass [] renderedLatexC)
            (classListIdx (addClass (removeClass st.parentClasses hasLatexC) hasLatexC) 1))
            (classListIdx (addClass (removeClass st.parentClasses hasLatexC) hasLatexC) 2),
          hEq, mem_contC _ _, rfl, Or.inl ⟨cs, rfl, hr⟩, ?_, rfl, hp, rfl⟩
        intro hinv
        exact onlyHead_tail_zero hinv
      · have hEq : handle_node st = some { st with
            nodeClasses := addClass st.nodeClasses hasLatexC,
            parentClasses := addClass st.parentClasses hasLatexC,
            next := SibNode.elem (addClass (addClass (addClass [] renderedLatexC)
              (classListIdx (addClass st.parentClasses hasLatexC) 1))
              (classListIdx (addClass st.parentClasses hasLatexC) 2))
              :: (SibNode.elem cs :: rest) } := by
          simp [handle_node, hp, hn, hr, hm, hg]
        refine ⟨_, SibNode.elem cs :: rest,
          addClass (addClass (addClass [] renderedLatexC)
            (classListIdx (addClass st.parentClasses hasLatexC) 1))
            (classListIdx (addClass st.parentClasses hasLatexC) 2),
          hEq, mem_contC _ _, rfl, Or.inr rfl, ?_, rfl, hp, rfl⟩
        intro hinv
        have h0 := onlyHead_tail_zero hinv
        have hc := countRendered_cons (SibNode.elem cs) rest
        have hs : isRendered (SibNode.elem cs) = false := by simp [isRendered, hr]
        simp [hs] at hc
        omega

theorem handle_node_nobuild {st : HandleState} (hp : st.hasParent = true)
    (hm : (has_latex st.nodeText || has_asciimath st.nodeText) = false)
    (hnt : st.next.head? ≠ some SibNode.textNode) :
    ∃ st' : HandleState,
      handle_node st = some st' ∧
      ((∃ cs, st.next = SibNode.elem cs :: st'.next ∧ renderedLatexC ∈ cs) ∨
        st'.next = st.next) := by
  cases hn : st.next with
  | nil =>
    exact ⟨st, by simp [handle_node, hp, hn, hm], Or.inr hn⟩
  | cons s rest =>
    cases s with
    | textNode => exact absurd (by rw [hn]; rfl) hnt
    | elem cs =>
      by_cases hr : renderedLatexC ∈ cs
      · have hEq : handle_node st = some { st with
            next := rest,
            nodeClasses := removeClass st.nodeClasses hasLatexC,
            parentClasses := removeClass st.parentClasses hasLatexC } := by
          simp [handle_node, hp, hn, hr, hm]
        exact ⟨_, hEq, Or.inl ⟨cs, rfl, hr⟩⟩
      · exact ⟨st, by simp [handle_node, hp, hn, hr, hm], Or.inr hn⟩

/-! ## Claim C2 -/

/-- C2: at-most-one container and idempotence of handle_node.  First
part: one successful invocation preserves the shape in which every
rendered-latex container among the following siblings is the immediate
next sibling, and leaves at most one such container.  Second part:
starting from any such state whose node has math, invoking handle_node
twice in a row succeeds and leaves exactly one rendered-latex container
after each of the two invocations (the stale container is removed before
the new one is inserted), not two. -/
theorem c2_sync :
    (∀ st st' : HandleState, handle_node st = some st' →
      renderedOnlyAtHead st.next = true →
      renderedOnlyAtHead st'.next = true ∧ countRendered st'.next ≤ 1) ∧
    (∀ st : HandleState, st.hasParent = true →
      st.next.head? ≠ some SibNode.textNode →
      renderedOnlyAtHead st.next = true →
      (has_latex st.nodeText || has_asciimath st.nodeText) = true →
      ∀ g : List String, st.gparentClasses = some g →
      ∃ st1 st2 : HandleState,
        handle_node st = some st1 ∧ handle_node st1 = some st2 ∧
        countRendered st1.next = 1 ∧ renderedOnlyAtHead st1.next = true ∧
        countRendered st2.next = 1 ∧ renderedOnlyAtHead st2.next = true) := by
  constructor
  · intro st st' h hinv
    by_cases hp : st.hasParent = true
    · by_cases hnt : st.next.head? = some SibNode.textNode
      · exfalso
        cases hn : st.next with
        | nil => rw [hn] at hnt; simp at hnt
        | cons s r =>
          cases s with
          | elem cs => rw [hn] at hnt; simp at hnt
          | textNode =>
            rw [handle_node_textnode hp hn] at h
            simp at h
      · by_cases hm : (has_latex st.nodeText || has_asciimath st.nodeText) = true
        · cases hg : st.gparentClasses with
          | none =>
            rw [handle_node_nogparent hp hm hg hnt] at h
            simp at h
          | some g =>
            obtain ⟨st2, next1, contC, hEq, hmem, hshape, -, hcnt0, -, -, -⟩ :=
              handle_node_build hp hm hg hnt
            rw [hEq] at h
            have e := Option.some.inj h
            subst e
            have h0 : countRendered next1 = 0 := hcnt0 hinv
            constructor
            · rw [hshape]
              simp [renderedOnlyAtHead, h0]
            · rw [hshape, countRendered_cons]
              have hR : isRendered (SibNode.elem contC) = true := by
                simp [isRendered, hmem]
              simp [hR, h0]
        · have hm' : (has_latex st.nodeText || has_asciimath st.nodeText) = false := by
            simpa using hm
          obtain ⟨st2, hEq, horigin⟩ := handle_node_nobuild hp hm' hnt
          rw [hEq] at h
          have e := Option.some.inj h
          subst e
          cases horigin with
          | inl hcase =>
            obtain ⟨cs, hcs, -⟩ := hcase
            rw [hcs] at hinv
            have h0 := onlyHead_tail_zero hinv
            exact ⟨renderedOnlyAtHead_of_zero h0, by omega⟩
          | inr hsame =>
            rw [hsame]
            exact ⟨hinv, count_le_one_of_onlyHead hinv⟩
    · have hp' : st.hasParent = false := by simpa using hp
      rw [handle_node_noparent hp'] at h
      have e := Option.some.inj h
      subst e
      exact ⟨hinv, count_le_one_of_onlyHead hinv⟩
  · intro st hp hnt hinv hm g hg
    obtain ⟨st1, next1, contC, hEq1, hmem1, hshape1, -, hcnt01, hTxt, hPar, hGp⟩ :=
      handle_node_build hp hm hg hnt
    have h0 : countRendered next1 = 0 := hcnt01 hinv
    have hR1 : isRendered (SibNode.elem contC) = true := by simp [isRendered, hmem1]
    have hcnt1 : countRendered st1.next = 1 := by
      rw [hshape1, countRendered_cons]
      simp [hR1, h0]
    have hinv1 : renderedOnlyAtHead st1.next = true := by
      rw [hshape1]
      simp [renderedOnlyAtHead, h0]
    have hm1 : (has_latex st1.nodeText || has_asciimath st1.nodeText) = true := by
      rw [hTxt]
      exact hm
    have hg1 : st1.gparentClasses = some g := by
      rw [hGp]
      exact hg
    have hnt1 : st1.next.head? ≠ some SibNode.textNode := by
      rw [hshape1]
      simp
    obtain ⟨st2, next2, contC2, hEq2, hmem2, hshape2, -, hcnt02, -, -, -⟩ :=
      handle_node_build hPar hm1 hg1 hnt1
    have h02 : countRendered next2 = 0 := hcnt02 hinv1
    have hR2 : isRendered (SibNode.elem contC2) = true := by simp [isRendered, hmem2]
    have hcnt2 : countRendered st2.next = 1 := by
      rw [hshape2, countRendered_cons]
      simp [hR2, h02]
    have hinv2 : renderedOnlyAtHead st2.next = true := by
      rw [hshape2]
      simp [renderedOnlyAtHead, h02]
    exact ⟨st1, st2, hEq1, hEq2, hcnt1, hinv1, hcnt2, hinv2⟩

/-! ## Claim C10 -/

/-- C10: frame property of stale-container removal.  First part: a
successful handle_node invocation splits the following siblings into the
ones it keeps (all pre-existing nodes, possibly preceded by the one
newly inserted container) and at most one removed node, and a node is
removed only when it is the immediate next sibling, is an element, and
carries the class rendered-latex.  Second part: when the immediate next
sibling is a non-element node, which has no classList, the class check
itself throws, so in particular no node is ever detected or removed
there. -/
theorem c10_frame :
    (∀ st st' : HandleState, handle_node st = some st' →
      ∃ keep : List SibNode,
        (st'.next = keep ∨ ∃ c : List String, st'.next = SibNode.elem c :: keep) ∧
        (keep = st.next ∨
          ∃ cs : List String, st.next = SibNode.elem cs :: keep ∧ renderedLatexC ∈ cs)) ∧
    (∀ st : HandleState, st.hasParent = true →
      st.next.head? = some SibNode.textNode → handle_node st = none) := by
  constructor
  · intro st st' h
    by_cases hp : st.hasParent = true
    · by_cases hnt : st.next.head? = some SibNode.textNode
      · exfalso
        cases hn : st.next with
        | nil => rw [hn] at hnt; simp at hnt
        | cons s r =>
          cases s with
          | elem cs => rw [hn] at hnt; simp at hnt
          | textNode =>
            rw [handle_node_textnode hp hn] at h
            simp at h
      · by_cases hm : (has_latex st.nodeText || has_asciimath st.nodeText) = true
        · cases hg : st.gparentClasses with
          | none =>
            rw [handle_node_nogparent hp hm hg hnt] at h
            simp at h
          | some g =>
            obtain ⟨st2, next1, contC, hEq, -, hshape, horigin, -, -, -, -⟩ :=
              handle_node_build hp hm hg hnt
            rw [hEq] at h
            have e := Option.some.inj h
            subst e
            refine ⟨next1, Or.inr ⟨contC, hshape⟩, ?_⟩
            cases horigin with
            | inl hcase => exact Or.inr hcase
            | inr hcase => exact Or.inl hcase
        · have hm' : (has_latex st.nodeText || has_asciimath st.nodeText) = false := by
            simpa using hm
          obtain ⟨st2, hEq, horigin⟩ := handle_node_nobuild hp hm' hnt
          rw [hEq] at h
          have e := Option.some.inj h
          subst e
          cases horigin with
          | inl hcase =>
            obtain ⟨cs, hcs, hmemcs⟩ := hcase
            exact ⟨st2.next, Or.inl rfl, Or.inr ⟨cs, hcs, hmemcs⟩⟩
          | inr hsame => exact ⟨st2.next, Or.inl rfl, Or.inl hsame⟩
    · have hp' : st.hasParent = false := by simpa using hp
      rw [handle_node_noparent hp'] at h
      have e := Option.some.inj h
      subst e
      exact ⟨st.next, Or.inl rfl, Or.inl rfl⟩
  · intro st hp hh
    cases hn : st.next with
    | nil => rw [hn] at hh; simp at hh
    | cons s r =>
      cases s with
      | elem cs => rw [hn] at hh; simp at hh
      | textNode => exact handle_node_textnode hp hn

/-- Witness for C2 at a concrete state: an item text holding one dollar
pair, no pre-existing container; two invocations in a row each leave
exactly one rendered-latex container. -/
theorem c2_sync_witness :
    ∃ st1 st2 : HandleState,
      handle_node { hasParent := true, nodeText := [dollar, 'x', dollar],
                    nodeClasses := [], parentClasses := [], gparentClasses := some [],
                    next := [] } = some st1 ∧
      handle_node st1 = some st2 ∧
      countRendered st1.next = 1 ∧ renderedOnlyAtHead st1.next = true ∧
      countRendered st2.next = 1 ∧ renderedOnlyAtHead st2.next = true :=
  c2_sync.2
    { hasParent := true, nodeText := [dollar, 'x', dollar],
      nodeClasses := [], parentClasses := [], gparentClasses := some [], next := [] }
    rfl (by decide) rfl (by decide) [] rfl

/-- Witness for C10 at concrete states: an invocation on a no-math node
whose next sibling is a stale rendered-latex container removes exactly
that sibling and keeps the rest; an invocation whose next sibling is a
non-element node throws. -/
theorem c10_frame_witness :
    (∃ keep : List SibNode,
      (([] : List SibNode) = keep ∨
        ∃ c : List String, ([] : List SibNode) = SibNode.elem c :: keep) ∧
      (keep = [SibNode.elem [renderedLatexC]] ∨
        ∃ cs : List String,
          [SibNode.elem [renderedLatexC]] = SibNode.elem cs :: keep ∧
          renderedLatexC ∈ cs)) ∧
    handle_node { hasParent := true, nodeText := [], nodeClasses := [],
                  parentClasses := [], gparentClasses := some [],
                  next := [SibNode.textNode] } = none :=
  ⟨c10_frame.1
    { hasParent := true, nodeText := [], nodeClasses := [], parentClasses := [],
      gparentClasses := some [], next := [SibNode.elem [renderedLatexC]] }
    { hasParent := true, nodeText := [], nodeClasses := [], parentClasses := [],
      gparentClasses := some [], next := [] }
    (by decide),
   c10_frame.2
    { hasParent := true, nodeText := [], nodeClasses := [], parentClasses := [],
      gparentClasses := some [], next := [SibNode.textNode] }
    rfl rfl⟩

/-! ## Helper lemmas for the listener model -/

theorem stripKatexHtml_ann (b : KatexBlock) : (stripKatexHtml b).ann = b.ann := by
  unfold stripKatexHtml
  split <;> rfl

theorem katexReplace_allAnn {f : Frag} (h : allAnn f = true) :
    ∃ g : Frag, katexReplaceWithTex f defaultCopyDelimiters = some g ∧
      allText g = true := by
  have aux : ∀ f : Frag, allAnn f = true → ∃ f2 : Frag,
      displayPass defaultCopyDelimiters (removeKatexHtml f) = some f2 ∧
      allText (inlinePass defaultCopyDelimiters f2) = true := by
    intro f
    induction f with
    | nil => intro _; exact ⟨[], rfl, rfl⟩
    | cons n r ih =>
      intro hAll
      cases n with
      | text s =>
        have hr : allAnn r = true := by simpa [allAnn] using hAll
        obtain ⟨f2, h1, h2⟩ := ih hr
        refine ⟨DomNode.text s :: f2, ?_, ?_⟩
        · simp [removeKatexHtml, displayPass] at h1 ⊢
          rw [h1]
        · simp [inlinePass, allText] at h2 ⊢
          exact h2
      | wrapper disp b =>
        obtain ⟨hbs, hr⟩ : b.ann.isSome = true ∧ allAnn r = true := by
          simpa [allAnn] using hAll
        obtain ⟨src, hann⟩ := Option.isSome_iff_exists.mp hbs
        obtain ⟨f2, h1, h2⟩ := ih hr
        cases disp with
        | true =>
          refine ⟨DomNode.text (defaultCopyDelimiters.displayL ++ src ++
            defaultCopyDelimiters.displayR) :: f2, ?_, ?_⟩
          · simp [removeKatexHtml, displayPass, stripKatexHtml_ann, hann] at h1 ⊢
            rw [h1]
          · simp [inlinePass, allText] at h2 ⊢
            exact h2
        | false =>
          refine ⟨DomNode.wrapper false (stripKatexHtml b) :: f2, ?_, ?_⟩
          · simp [removeKatexHtml, displayPass] at h1 ⊢
            rw [h1]
          · have hann2 : (stripKatexHtml b).ann = some src := by
              rw [stripKatexHtml_ann, hann]
            simp [inlinePass, allText, hann2] at h2 ⊢
            exact h2
  obtain ⟨f2, h1, h2⟩ := aux f h
  exact ⟨inlinePass defaultCopyDelimiters f2, by simp [katexReplaceWithTex, h1], h2⟩

/-! ## Claim C3 -/

/-- C3: Backspace at text offset zero.  When the key code is 8, the
selection anchor offset is zero, item B is focused, its previous visible
sibling is A, and the element of A contains katex-mathml blocks (all
carrying their annotation, i.e. the rendered markup is intact), the
SYNCHRONOUS phase of wfEventListener, which runs inside the keydown
dispatch and therefore before the default action performs the merge,
already replaces the element of A by its katexReplaceWithTex image,
and that image is pure text: no rendered markup remains that a
subsequent merge could concatenate into the source of B.  The deferred
callback is still scheduled. -/
theorem c3_backspace_sync :
    ∀ (ev : EventObject) (st : WfState) (bId aId : String) (fragA : Frag),
      ev.keyCode = 8 →
      st.anchorOffset = 0 →
      st.focused = some bId →
      lookupA st.prevSib bId = some aId →
      lookupA st.elems aId = some fragA →
      fragHasMathml fragA = true →
      allAnn fragA = true →
      ∃ fragA2 : Frag,
        katexReplaceWithTex fragA defaultCopyDelimiters = some fragA2 ∧
        allText fragA2 = true ∧
        wfSync ev st =
          some ({ st with elems := setA st.elems aId fragA2 }, some DeferredWork.main) := by
  intro ev st bId aId fragA hk hoff hfoc hprev helem hmath hann
  obtain ⟨fragA2, hkx, htext⟩ := katexReplace_allAnn hann
  refine ⟨fragA2, hkx, htext, ?_⟩
  have hk13 : ¬(ev.keyCode = 13 ∧ ev.altKey) := by simp [hk]
  simp [wfSync, hk13, hk, backspaceSync, hoff, hfoc, hprev, helem, hmath, hkx]

/-- Witness for C3 at a concrete state: Backspace at offset zero with a
focused item, a previous sibling holding one rendered inline formula
with its annotation; the synchronous phase restores that sibling to
plain text and schedules the deferred callback. -/
theorem c3_backspace_sync_witness :
    ∃ fragA2 : Frag,
      katexReplaceWithTex
        [DomNode.wrapper false { hasMathml := true, ann := some ['x'], hasHtml := true }]
        defaultCopyDelimiters = some fragA2 ∧
      allText fragA2 = true ∧
      wfSync { keyCode := 8, altKey := false }
        { items := [], focused := some (r"B"), current := none, anchorOffset := 0,
          prevSib := [((r"B"), (r"A"))],
          elems := [((r"A"),
            [DomNode.wrapper false { hasMathml := true, ann := some ['x'], hasHtml := true }])],
          oldfocusedItemID := none, currentID := none } =
        some ({ items := [], focused := some (r"B"), current := none, anchorOffset := 0,
                prevSib := [((r"B"), (r"A"))],
                elems := setA
                  [((r"A"),
                    [DomNode.wrapper false
                      { hasMathml := true, ann := some ['x'], hasHtml := true }])]
                  (r"A") fragA2,
                oldfocusedItemID := none, currentID := none },
              some DeferredWork.main) :=
  c3_backspace_sync { keyCode := 8, altKey := false }
    { items := [], focused := some (r"B"), current := none, anchorOffset := 0,
      prevSib := [((r"B"), (r"A"))],
      elems := [((r"A"),
        [DomNode.wrapper false { hasMathml := true, ann := some ['x'], hasHtml := true }])],
      oldfocusedItemID := none, currentID := none }
    (r"B") (r"A")
    [DomNode.wrapper false { hasMathml := true, ann := some ['x'], hasHtml := true }]
    rfl rfl rfl (by decide) (by decide) (by decide) (by decide)

/-! ## Claim C4 -/

/-- C4 counterexample: a concrete focus transition from item A to item B
(A recorded as the previous focus, B now focused, generic key code 39).
After wfEventListener completes, line 273 has overwritten
oldfocusedItemID with currentID, so the state holds previousItemId = B,
not A: the claimed invariant previousItemId = A after the transition is
false.  (The element of A was still re-rendered correctly during the
run, using the pair observed before line 273.) -/
theorem c4_counterexample :
    wfEventListener id { keyCode := 39, altKey := false }
      { items := [(r"A"), (r"B")], focused := some (r"B"), current := none, anchorOffset := 1, prevSib := [], elems := [((r"A"), [DomNode.text ['a']]), ((r"B"), [DomNode.text ['b']])], oldfocusedItemID := some (r"A"), currentID := some (r"A") } =
      some { items := [(r"A"), (r"B")], focused := some (r"B"), current := none, anchorOffset := 1, prevSib := [], elems := [((r"A"), [DomNode.text ['a']]), ((r"A"), [DomNode.text ['a']]), ((r"B"), [DomNode.text ['b']])], oldfocusedItemID := some (r"B"), currentID := some (r"B") } ∧
    (some (r"B") : Option String) ≠ some (r"A") := by
  exact ⟨by decide, by decide⟩

/-- C4 (amended): when the deferred callback processes a focus
transition from A to B (B focused, oldfocusedItemID = A, A different
from B, generic key), the detection step observes the pair
(previous = A, current = B), i.e. mainDetect only sets currentID and
leaves oldfocusedItemID = A, and the element of A is re-rendered; but at
completion of the listener BOTH oldfocusedItemID and currentID hold B
(line 273 copies currentID into oldfocusedItemID), so oldfocusedItemID
is the identifier of the last processed focus, stale by at most one
transition, rather than the previous item of the claim.  On the Enter
key the detection instead resolves the previous visible sibling of the
new focus, per the special case. -/
theorem c4_focus_tracker :
    (∀ (render : Frag → Frag) (ev : EventObject) (st : WfState) (aId bId : String)
        (fragA fragB : Frag),
      ev.keyCode ≠ 13 → ev.keyCode ≠ 8 →
      st.focused = some bId →
      st.oldfocusedItemID = some aId →
      aId ≠ bId →
      aId ∈ st.items →
      lookupA st.elems aId = some fragA →
      lookupA st.elems bId = some fragB →
      fragHasMathml fragB = false →
      ∃ st' : WfState,
        wfEventListener render ev st = some st' ∧
        mainDetect ev bId st = some { st with currentID := some bId } ∧
        lookupA st'.elems aId = some (render fragA) ∧
        st'.oldfocusedItemID = some bId ∧
        st'.currentID = some bId) ∧
    (∀ (ev : EventObject) (st : WfState) (bId pId : String),
      ev.keyCode = 13 →
      st.focused = some bId →
      lookupA st.prevSib bId = some pId →
      mainDetect ev bId st =
        some { st with oldfocusedItemID := some pId, currentID := some bId }) := by
  constructor
  · intro render ev st aId bId fragA fragB hk13 hk8 hfoc hold hne hmem helemA helemB hmathB
    have hne2 : ¬((some bId : Option String) = some aId) := by
      intro hh
      exact hne (Option.some.inj hh).symm
    refine ⟨{ st with currentID := some bId, elems := setA st.elems aId (render fragA), oldfocusedItemID := some bId }, ?_, ?_, ?_, rfl, rfl⟩
    · simp [wfEventListener, wfSync, hk13, hk8, mainDeferred, hfoc, mainDetect, mainRest,
        rerenderOld, hold, hne2, hmem, helemA, setA, lookupA, hne, helemB, hmathB]
    · simp [mainDetect, hk13]
    · simp [setA, lookupA]
  · intro ev st bId pId hk hfoc hprev
    simp [mainDetect, hk, hprev]

/-- Witness for C4 at the concrete transition of the counterexample
state: the amended statement instantiated there. -/
theorem c4_focus_tracker_witness :
    ∃ st' : WfState,
      wfEventListener id { keyCode := 39, altKey := false }
        { items := [(r"A"), (r"B")], focused := some (r"B"), current := none, anchorOffset := 1, prevSib := [], elems := [((r"A"), [DomNode.text ['a']]), ((r"B"), [DomNode.text ['b']])], oldfocusedItemID := some (r"A"), currentID := some (r"A") } = some st' ∧
      mainDetect { keyCode := 39, altKey := false } (r"B")
        { items := [(r"A"), (r"B")], focused := some (r"B"), current := none, anchorOffset := 1, prevSib := [], elems := [((r"A"), [DomNode.text ['a']]), ((r"B"), [DomNode.text ['b']])], oldfocusedItemID := some (r"A"), currentID := some (r"A") } =
        some { items := [(r"A"), (r"B")], focused := some (r"B"), current := none, anchorOffset := 1, prevSib := [], elems := [((r"A"), [DomNode.text ['a']]), ((r"B"), [DomNode.text ['b']])], oldfocusedItemID := some (r"A"), currentID := some (r"B") } ∧
      lookupA st'.elems (r"A") = some (id [DomNode.text ['a']]) ∧
      st'.oldfocusedItemID = some (r"B") ∧
      st'.currentID = some (r"B") :=
  c4_focus_tracker.1 id { keyCode := 39, altKey := false }
    { items := [(r"A"), (r"B")], focused := some (r"B"), current := none, anchorOffset := 1, prevSib := [], elems := [((r"A"), [DomNode.text ['a']]), ((r"B"), [DomNode.text ['b']])], oldfocusedItemID := some (r"A"), currentID := some (r"A") }
    (r"A") (r"B") [DomNode.text ['a']] [DomNode.text ['b']]
    (by decide) (by decide) rfl rfl (by decide) (by decide) (by decide) (by decide) rfl

/-! ## Claim C6 -/

theorem rerenderOld_elems_other (render : Frag → Frag) {st : WfState} {fid : String}
    (h : st.oldfocusedItemID ≠ some fid) :
    lookupA (rerenderOld render st).elems fid = lookupA st.elems fid := by
  unfold rerenderOld
  cases ho : st.oldfocusedItemID with
  | none => rfl
  | some oid =>
    have hne : ¬(oid = fid) := by
      intro hh
      exact h (by rw [ho, hh])
    by_cases hi : oid ∈ st.items
    · cases he : lookupA st.elems oid with
      | none => simp [hi, he]
      | some ofrag => simp [hi, he, setA, lookupA, hne]
    · simp [hi]

/-- C6 counterexample: Backspace at anchor offset zero while
WF.focusedItem() returns null.  Line 211 calls
getPreviousVisibleSibling on that null value without a guard, so
wfEventListener throws (none) instead of doing nothing, refuting the
claim that every null host-accessor result is a no-op. -/
theorem c6_counterexample :
    wfEventListener id { keyCode := 8, altKey := false }
      { items := [], focused := none, current := none, anchorOffset := 0, prevSib := [], elems := [], oldfocusedItemID := none, currentID := none } = none := by
  decide

/-- C6 (amended): null host-API results are no-ops on the guarded paths
but not on all paths.  renderMath treats a null currentItem and a null
getElement as no-ops; the synchronous Backspace branch treats a null
previous sibling and a null sibling element as no-ops but THROWS when
focusedItem() itself is null; the deferred callback treats a null
focusedItem as a no-op, getItemById of an unknown or undefined old
identifier and a null old element as no-ops inside rerenderOld, but
throws when the Enter branch reads getId of a null previous visible
sibling and when getElement of the focused item is null (the
querySelector of line 274 has no guard). -/
theorem c6_null_accessors :
    (∀ (render : Frag → Frag) (st : WfState), st.current = none →
        renderMath render st = some st) ∧
    (∀ (render : Frag → Frag) (st : WfState) (cid : String), st.current = some cid →
        lookupA st.elems cid = none → renderMath render st = some st) ∧
    (∀ (ev : EventObject) (st : WfState), ev.keyCode = 8 → st.anchorOffset = 0 →
        st.focused = none → wfSync ev st = none) ∧
    (∀ (ev : EventObject) (st : WfState) (fid : String), ev.keyCode = 8 →
        st.anchorOffset = 0 → st.focused = some fid → lookupA st.prevSib fid = none →
        wfSync ev st = some (st, some DeferredWork.main)) ∧
    (∀ (ev : EventObject) (st : WfState) (fid pid : String), ev.keyCode = 8 →
        st.anchorOffset = 0 → st.focused = some fid →
        lookupA st.prevSib fid = some pid → lookupA st.elems pid = none →
        wfSync ev st = some (st, some DeferredWork.main)) ∧
    (∀ (render : Frag → Frag) (ev : EventObject) (st : WfState), st.focused = none →
        mainDeferred render ev st = some st) ∧
    (∀ (render : Frag → Frag) (st : WfState), st.oldfocusedItemID = none →
        rerenderOld render st = st) ∧
    (∀ (render : Frag → Frag) (st : WfState) (oid : String),
        st.oldfocusedItemID = some oid → oid ∉ st.items → rerenderOld render st = st) ∧
    (∀ (render : Frag → Frag) (ev : EventObject) (st : WfState) (fid : String),
        ev.keyCode = 13 → st.focused = some fid → lookupA st.prevSib fid = none →
        mainDeferred render ev st = none) ∧
    (∀ (render : Frag → Frag) (ev : EventObject) (st : WfState) (fid : String),
        ev.keyCode ≠ 13 → st.focused = some fid → lookupA st.elems fid = none →
        mainDeferred render ev st = none) := by
  refine ⟨?_, ?_, ?_, ?_, ?_, ?_, ?_, ?_, ?_, ?_⟩
  · intro render st hc
    simp [renderMath, hc]
  · intro render st cid hc he
    simp [renderMath, hc, he]
  · intro ev st hk hoff hfoc
    have hk13 : ¬(ev.keyCode = 13 ∧ ev.altKey) := by simp [hk]
    simp [wfSync, hk13, hk, backspaceSync, hoff, hfoc]
  · intro ev st fid hk hoff hfoc hprev
    have hk13 : ¬(ev.keyCode = 13 ∧ ev.altKey) := by simp [hk]
    simp [wfSync, hk13, hk, backspaceSync, hoff, hfoc, hprev]
  · intro ev st fid pid hk hoff hfoc hprev helem
    have hk13 : ¬(ev.keyCode = 13 ∧ ev.altKey) := by simp [hk]
    simp [wfSync, hk13, hk, backspaceSync, hoff, hfoc, hprev, helem]
  · intro render ev st hfoc
    simp [mainDeferred, hfoc]
  · intro render st ho
    simp [rerenderOld, ho]
  · intro render st oid ho hmem
    simp [rerenderOld, ho, hmem]
  · intro render ev st fid hk hfoc hprev
    simp [mainDeferred, hfoc, mainDetect, hk, hprev]
  · intro render ev st fid hk13 hfoc helem
    simp only [mainDeferred, hfoc]
    have hdet : mainDetect ev fid st = some { st with currentID := some fid } := by
      simp [mainDetect, hk13]
    rw [hdet]
    simp only [mainRest]
    by_cases hcond :
        some fid ≠ ({ st with currentID := some fid } : WfState).oldfocusedItemID
    · rw [if_pos hcond]
      have h2 : ({ st with currentID := some fid } : WfState).oldfocusedItemID ≠ some fid :=
        fun hh => hcond hh.symm
      have h3 := rerenderOld_elems_other render h2
      rw [h3]
      simp [helem]
    · rw [if_neg hcond]
      simp [helem]

/-- Witness for C6 at concrete states: renderMath with a null
currentItem is a no-op, and the deferred callback with a null
focusedItem is a no-op. -/
theorem c6_null_accessors_witness :
    renderMath id
      { items := [], focused := none, current := none, anchorOffset := 0, prevSib := [], elems := [], oldfocusedItemID := none, currentID := none } =
      some { items := [], focused := none, current := none, anchorOffset := 0, prevSib := [], elems := [], oldfocusedItemID := none, currentID := none } ∧
    mainDeferred id { keyCode := 0, altKey := false }
      { items := [], focused := none, current := none, anchorOffset := 0, prevSib := [], elems := [], oldfocusedItemID := none, currentID := none } =
      some { items := [], focused := none, current := none, anchorOffset := 0, prevSib := [], elems := [], oldfocusedItemID := none, currentID := none } :=
  ⟨c6_null_accessors.1 id
    { items := [], focused := none, current := none, anchorOffset := 0, prevSib := [], elems := [], oldfocusedItemID := none, currentID := none } rfl,
   c6_null_accessors.2.2.2.2.2.1 id { keyCode := 0, altKey := false }
    { items := [], focused := none, current := none, anchorOffset := 0, prevSib := [], elems := [], oldfocusedItemID := none, currentID := none } rfl⟩
